import Mathlib

/-!
Verification of `stop-idle-sessions` (`src/stop_idle_sessions/main.py`)
against its natural-language specification.

The data model and the operations below are a shallow embedding of the
Python source.  Timestamps and durations (`datetime.datetime`,
`datetime.timedelta`) are embedded as `Int` (seconds); machine strings as
Lean `String`; the Python string fed to `re.split` as `List Char` so that
everything stays kernel-computable; fallible code returns `Option`
(`none` standing for a raised `SessionParseError`).
-/

namespace StopIdleSessions

/-- A `stop_idle_sessions.ps.Process` reduced to what `main.py` consults:
its pid. -/
structure Process where
  pid : Nat
  deriving DecidableEq, Repr

/-- Modelled from the spec: equality on `stop_idle_sessions.ps.Process`
(the `ps` module is not under `src/`); spec section 3: "Equality is by
process id alone." -/
def process_eq (a b : Process) : Bool :=
  a.pid == b.pid

/-- The TTY handle of a session (`stop_idle_sessions.tty.TTY`), reduced to
the fields `main.py` consults: its name and the access/modification
timestamps of the device node. -/
structure TTY where
  name : String
  atime : Int
  mtime : Int
  deriving DecidableEq, Repr

/-- A `stop_idle_sessions.logind.Session` reduced to the fields `main.py`
consults. -/
structure LogindSession where
  session_id : String
  uid : Nat
  session_type : String
  tty : String
  leader : Nat
  deriving DecidableEq, Repr

/-- `main.SessionProcess`: a process inside a session, its tunneled backend
processes, and the sessions containing those backends.  Following the
arena representation (spec section 9), `tunneled_sessions` stores session
ids; `Session.__eq__` compares session ids only, so list membership by id
is observationally the Python list membership. -/
structure SessionProcess where
  process : Process
  tunneled_processes : List Process
  tunneled_sessions : List String
  deriving DecidableEq, Repr

/-- `main.Session`: one logind session combined with its TTY handle,
display information, username and processes. -/
structure Session where
  session : LogindSession
  tty : Option TTY
  display : Option String
  display_idle : Option Int
  username : String
  processes : List SessionProcess
  deriving DecidableEq, Repr

/-! ## `SessionProcess.__eq__` and `Session.__eq__` (main.py lines 41-46 and 72-77)

Python compares `self` against an arbitrary object, first checking
`hasattr`.  The possible shapes of the right-hand object, as far as these
methods can distinguish them, are captured by small inductive types. -/

/-- The shapes of a Python object as observed by `SessionProcess.__eq__`:
it may lack a `process` attribute, have one lacking a `pid`, or have a
`process.pid`. -/
inductive PyProcessOther where
  | missingProcessAttr
  | processMissingPid
  | processWithPid (pid : Nat)
  deriving DecidableEq, Repr

/-- `SessionProcess.__eq__` (main.py lines 41-46). -/
def sessionprocess_eq (self : SessionProcess) : PyProcessOther → Bool
  | .missingProcessAttr => false
  | .processMissingPid => false
  | .processWithPid opid => self.process.pid == opid

/-- A genuine `SessionProcess` viewed as the right-hand object of
`SessionProcess.__eq__`: it has a `process` attribute with a `pid`. -/
def SessionProcess.asOther (p : SessionProcess) : PyProcessOther :=
  .processWithPid p.process.pid

/-- The shapes of a Python object as observed by `Session.__eq__`: it may
lack a `session` attribute, have one lacking a `session_id`, or have a
`session.session_id`. -/
inductive PySessionOther where
  | missingSessionAttr
  | sessionMissingId
  | sessionWithId (session_id : String)
  deriving DecidableEq, Repr

/-- `Session.__eq__` (main.py lines 72-77). -/
def session_eq (self : Session) : PySessionOther → Bool
  | .missingSessionAttr => false
  | .sessionMissingId => false
  | .sessionWithId sid => self.session.session_id == sid

/-- A genuine `Session` viewed as the right-hand object of
`Session.__eq__`: it has a `session` attribute with a `session_id`. -/
def Session.asOther (s : Session) : PySessionOther :=
  .sessionWithId s.session.session_id

/-! ## Eligibility filter (`skip_ineligible_session`, main.py lines 193-233) -/

/-- `main.skip_ineligible_session`: sequential early-return checks, in
source order (graphical type, no tty, excluded user, leader pid 0). -/
def skip_ineligible_session (session : Session)
    (excluded_users : Option (List String)) : Bool :=
  if session.session.session_type == "x11"
      || session.session.session_type == "wayland"
      || session.session.session_type == "mir" then
    true
  else if session.tty.isNone then
    true
  else if (match excluded_users with
           | some l => l.contains session.username
           | none => false) then
    true
  else if session.session.leader == 0 then
    true
  else
    false

/-! ## Idleness evaluator (`compute_idleness_metric`, main.py lines 236-318) -/

/-- One conditional-update step of `compute_idleness_metric`:
`if cond and (minimum_idle is None or c < minimum_idle): minimum_idle = c`
with the source condition already discharged by the caller. -/
def optMinStep (acc : Option Int) (c : Int) : Option Int :=
  match acc with
  | none => some c
  | some m => if c < m then some c else some m

/-- The three non-recursive sources of `compute_idleness_metric`
(main.py lines 263-287), applied in source order: tty atime, tty mtime,
display idleness.  Each source applies `optMinStep` when its guard holds. -/
def idlenessBaseScan (s : Session) (now : Int) : Option Int :=
  let m1 : Option Int :=
    match s.tty with
    | some t => optMinStep none (now - t.atime)
    | none => none
  let m2 : Option Int :=
    match s.tty with
    | some t => optMinStep m1 (now - t.mtime)
    | none => m1
  match s.display_idle with
  | some d => optMinStep m2 d
  | none => m2

/-- `main.compute_idleness_metric` (main.py lines 236-318).  A raised
`SessionParseError` is `none`.  Sessions referenced from
`tunneled_sessions` are resolved by id against the arena of all loaded
sessions; the recursive call passes `nested := true`, exactly as the
source passes `nested=True`, and the whole tunneled branch is guarded by
`if not nested`.  An inner `none` (a swallowed `SessionParseError`) leaves
the accumulator unchanged. -/
def compute_idleness_metric (arena : List Session) (s : Session)
    (now : Int) (nested : Bool) : Option Int :=
  match nested with
  | true => idlenessBaseScan s now
  | false =>
    s.processes.foldl
      (fun acc p =>
        p.tunneled_sessions.foldl
          (fun acc2 tid =>
            match List.find? (fun t => t.session.session_id == tid) arena with
            | none => acc2
            | some t =>
              match compute_idleness_metric arena t now true with
              | none => acc2
              | some inner => optMinStep acc2 inner)
          acc)
      (idlenessBaseScan s now)
termination_by (if nested then 0 else 1)
decreasing_by simp

/-- Depth-two unfolding of the evaluator: the outer session's base scan
followed by, for each tunneled session, only that session's base scan.
This definition is manifestly non-recursive. -/
def idlenessDepthTwo (arena : List Session) (s : Session) (now : Int) :
    Option Int :=
  s.processes.foldl
    (fun acc p =>
      p.tunneled_sessions.foldl
        (fun acc2 tid =>
          match List.find? (fun t => t.session.session_id == tid) arena with
          | none => acc2
          | some t =>
            match idlenessBaseScan t now with
            | none => acc2
            | some inner => optMinStep acc2 inner)
        acc)
    (idlenessBaseScan s now)

/-- A nested evaluation consults only the non-recursive sources. -/
theorem compute_idleness_nested_eq (arena : List Session) (s : Session)
    (now : Int) :
    compute_idleness_metric arena s now true = idlenessBaseScan s now := by
  simp [compute_idleness_metric]

/-- An outer evaluation is exactly the depth-two unfolding. -/
theorem compute_idleness_outer_eq (arena : List Session) (s : Session)
    (now : Int) :
    compute_idleness_metric arena s now false = idlenessDepthTwo arena s now := by
  rw [compute_idleness_metric]
  simp [idlenessDepthTwo, compute_idleness_nested_eq]

/-! ## The evaluator computes a minimum

`compute_idleness_metric` is a sequence of conditional strict-compare
updates; the lemmas below relate that fold to the minimum of the list of
candidate durations. -/

/-- Combine two optional durations, keeping the smaller when both exist. -/
def optMin : Option Int → Option Int → Option Int
  | none, b => b
  | some a, none => some a
  | some a, some b => some (min a b)

/-- Minimum of a list of durations (`none` on the empty list). -/
def listMin : List Int → Option Int
  | [] => none
  | c :: l =>
    match listMin l with
    | none => some c
    | some m => some (min c m)

lemma optMin_none_right (a : Option Int) : optMin a none = a := by
  cases a <;> rfl

lemma optMinStep_eq_optMin (acc : Option Int) (c : Int) :
    optMinStep acc c = optMin acc (some c) := by
  cases acc with
  | none => rfl
  | some m =>
    simp only [optMinStep, optMin]
    by_cases h : c < m
    · rw [if_pos h]
      rw [min_eq_right (le_of_lt h)]
    · rw [if_neg h]
      rw [min_eq_left (le_of_not_lt h)]

lemma optMin_assoc (a b c : Option Int) :
    optMin (optMin a b) c = optMin a (optMin b c) := by
  cases a <;> cases b <;> cases c <;> simp [optMin, min_assoc]

lemma foldl_optMinStep_eq_listMin (l : List Int) (acc : Option Int) :
    l.foldl optMinStep acc = optMin acc (listMin l) := by
  induction l generalizing acc with
  | nil => simp [listMin, optMin_none_right]
  | cons c l ih =>
    have hcons : listMin (c :: l) = optMin (some c) (listMin l) := by
      cases h : listMin l <;> simp [listMin, h, optMin]
    rw [List.foldl_cons, ih, optMinStep_eq_optMin, optMin_assoc, hcons]

lemma listMin_eq_none_iff (l : List Int) : listMin l = none ↔ l = [] := by
  cases l with
  | nil => simp [listMin]
  | cons c l =>
    simp only [listMin]
    cases h : listMin l <;> simp

lemma listMin_spec (l : List Int) (d : Int) :
    listMin l = some d ↔ d ∈ l ∧ ∀ c ∈ l, d ≤ c := by
  induction l generalizing d with
  | nil => simp [listMin]
  | cons c l ih =>
    cases h : listMin l with
    | none =>
      have hl : l = [] := (listMin_eq_none_iff l).mp h
      subst hl
      simp only [listMin]
      constructor
      · intro hd
        rcases hd with hd
        simp_all
      · intro hd
        rcases hd with ⟨hmem, hle⟩
        simp_all
    | some m =>
      have hm := (ih m).mp h
      simp only [listMin, h]
      constructor
      · intro hd
        have hd' : min c m = d := by simpa using hd
        constructor
        · rw [List.mem_cons]
          rcases le_total c m with hcm | hmc
          · left
            rw [min_eq_left hcm] at hd'
            omega
          · right
            rw [min_eq_right hmc] at hd'
            exact hd' ▸ hm.1
        · intro x hx
          rcases List.mem_cons.mp hx with hx1 | hx1
          · rw [hx1]
            calc d = min c m := hd'.symm
              _ ≤ c := min_le_left c m
          · calc d = min c m := hd'.symm
              _ ≤ m := min_le_right c m
              _ ≤ x := hm.2 x hx1
      · rintro ⟨hmem, hle⟩
        have h1 : d ≤ min c m := by
          apply le_min (hle c (List.mem_cons_self c l))
          exact hle m (List.mem_cons_of_mem c hm.1)
        have h2 : min c m ≤ d := by
          rcases List.mem_cons.mp hmem with hd | hd
          · exact hd ▸ min_le_left c m
          · exact le_trans (min_le_right c m) (hm.2 d hd)
        have : min c m = d := le_antisymm h2 h1
        simp [this]

/-- The candidate durations of the non-recursive sources, in source order:
tty atime, tty mtime, display idleness. -/
def baseCandidates (s : Session) (now : Int) : List Int :=
  (match s.tty with
   | some t => [now - t.atime, now - t.mtime]
   | none => []) ++
  (match s.display_idle with
   | some d => [d]
   | none => [])

/-- The candidate durations contributed by tunneled sessions: for each
process of `s` and each of its tunneled sessions (resolved against the
arena), the successfully computed recursive idleness. -/
def innerCandidates (arena : List Session) (s : Session) (now : Int) :
    List Int :=
  s.processes.flatMap fun p =>
    p.tunneled_sessions.filterMap fun tid =>
      (List.find? (fun t => t.session.session_id == tid) arena).bind
        (fun t => compute_idleness_metric arena t now true)

/-- All applicable candidate durations of the evaluator: the tunneled
branch applies only when `nested` is false. -/
def allCandidates (arena : List Session) (s : Session) (now : Int)
    (nested : Bool) : List Int :=
  baseCandidates s now ++
    (if nested then [] else innerCandidates arena s now)

lemma idlenessBaseScan_eq_fold (s : Session) (now : Int) :
    idlenessBaseScan s now = (baseCandidates s now).foldl optMinStep none := by
  cases ht : s.tty <;> cases hd : s.display_idle <;>
    simp [idlenessBaseScan, baseCandidates, ht, hd]

lemma foldl_filterMap_optMinStep {α : Type} (h : α → Option Int)
    (l : List α) (acc : Option Int) :
    (l.filterMap h).foldl optMinStep acc =
      l.foldl
        (fun a x =>
          match h x with
          | none => a
          | some v => optMinStep a v)
        acc := by
  induction l generalizing acc with
  | nil => rfl
  | cons x l ih =>
    cases hx : h x <;> simp [List.filterMap_cons, hx, ih]

lemma foldl_flatMap {α β γ : Type} (f : α → List β) (g : γ → β → γ)
    (l : List α) (acc : γ) :
    (l.flatMap f).foldl g acc = l.foldl (fun a x => (f x).foldl g a) acc := by
  induction l generalizing acc with
  | nil => rfl
  | cons x l ih =>
    simp [List.flatMap_cons, List.foldl_append, ih]

lemma idlenessDepthTwo_eq_fold (arena : List Session) (s : Session)
    (now : Int) :
    idlenessDepthTwo arena s now =
      (innerCandidates arena s now).foldl optMinStep
        (idlenessBaseScan s now) := by
  rw [idlenessDepthTwo, innerCandidates, foldl_flatMap]
  congr 1
  funext acc p
  rw [foldl_filterMap_optMinStep]
  congr 1
  funext a tid
  simp only [compute_idleness_nested_eq]
  cases hf : List.find? (fun t => t.session.session_id == tid) arena <;>
    simp [hf, Option.bind]

/-- The evaluator is exactly the minimum of the applicable candidates. -/
lemma compute_idleness_eq_listMin (arena : List Session) (s : Session)
    (now : Int) (nested : Bool) :
    compute_idleness_metric arena s now nested =
      listMin (allCandidates arena s now nested) := by
  cases nested with
  | true =>
    rw [compute_idleness_nested_eq, idlenessBaseScan_eq_fold,
      foldl_optMinStep_eq_listMin, allCandidates]
    simp [optMin]
  | false =>
    rw [compute_idleness_outer_eq, idlenessDepthTwo_eq_fold,
      idlenessBaseScan_eq_fold, ← List.foldl_append,
      foldl_optMinStep_eq_listMin, allCandidates]
    simp [optMin]

lemma baseCandidates_eq_nil_iff (s : Session) (now : Int) :
    baseCandidates s now = [] ↔ s.tty = none ∧ s.display_idle = none := by
  cases ht : s.tty <;> cases hd : s.display_idle <;>
    simp [baseCandidates, ht, hd]

lemma innerCandidates_eq_nil_iff (arena : List Session) (s : Session)
    (now : Int) :
    innerCandidates arena s now = [] ↔
      ∀ p ∈ s.processes, ∀ tid ∈ p.tunneled_sessions,
        ∀ t, List.find? (fun u => u.session.session_id == tid) arena = some t →
          compute_idleness_metric arena t now true = none := by
  rw [innerCandidates, List.eq_nil_iff_forall_not_mem]
  constructor
  · intro h p hp tid htid t hfind
    by_contra hne
    rcases Option.ne_none_iff_exists'.mp hne with ⟨v, hv⟩
    exact h v (List.mem_flatMap.mpr ⟨p, hp,
      List.mem_filterMap.mpr ⟨tid, htid, by rw [hfind]; simpa using hv⟩⟩)
  · intro h v hv
    rcases List.mem_flatMap.mp hv with ⟨p, hp, hv2⟩
    rcases List.mem_filterMap.mp hv2 with ⟨tid, htid, hsome⟩
    cases hfind : List.find? (fun u => u.session.session_id == tid) arena with
    | none => rw [hfind] at hsome; simp at hsome
    | some t =>
      rw [hfind, Option.some_bind, h p hp tid htid t hfind] at hsome
      simp at hsome

/-- A session that tunnels back into itself: its only process has a tunnel
edge whose backend session is the session's own id. -/
def selfTunnelSession : Session :=
  { session := { session_id := "7", uid := 1000, session_type := "tty",
                 tty := "pts/1", leader := 100 },
    tty := some { name := "pts/1", atime := -5, mtime := -9 },
    display := none,
    display_idle := none,
    username := "alice",
    processes := [{ process := { pid := 100 },
                    tunneled_processes := [{ pid := 100 }],
                    tunneled_sessions := ["7"] }] }

/-- Claim C2: for every session and every instant `now`,
`compute_idleness_metric session now nested` returns the minimum over all
applicable candidate durations: `now - tty.atime` and `now - tty.mtime`
when a tty is present, the display idleness when present, and (only when
`nested` is false) the recursive idleness of each tunneled session
reachable through the session's processes. -/
theorem compute_idleness_metric_returns_minimum (arena : List Session)
    (s : Session) (now : Int) (nested : Bool) (d : Int) :
    compute_idleness_metric arena s now nested = some d ↔
      d ∈ allCandidates arena s now nested ∧
        ∀ c ∈ allCandidates arena s now nested, d ≤ c := by
  rw [compute_idleness_eq_listMin]
  exact listMin_spec _ d

/-- Claim C8: the evaluator fails (raises `SessionParseError`, embedded as
`none`) exactly when no source yields a candidate: no tty, no display
idleness, and either the call is nested (so the tunneled branch is not
taken) or every attempted recursive evaluation of a tunneled session
itself fails.  In particular a failed recursive evaluation is swallowed:
it merely contributes no candidate. -/
theorem compute_idleness_metric_none_iff_no_source (arena : List Session)
    (s : Session) (now : Int) (nested : Bool) :
    compute_idleness_metric arena s now nested = none ↔
      s.tty = none ∧ s.display_idle = none ∧
        (nested = true ∨
          ∀ p ∈ s.processes, ∀ tid ∈ p.tunneled_sessions,
            ∀ t, List.find? (fun u => u.session.session_id == tid) arena = some t →
              compute_idleness_metric arena t now true = none) := by
  rw [compute_idleness_eq_listMin, listMin_eq_none_iff, allCandidates,
    List.append_eq_nil]
  rw [baseCandidates_eq_nil_iff]
  cases nested with
  | true => simp
  | false => simp [innerCandidates_eq_nil_iff, and_assoc]

/-- Claim C4: the evaluator recurses only when `nested` is false and always
passes `nested := true` on the recursive call, so evaluation is exactly a
depth-two (manifestly non-recursive) computation and yields a defined
result for every session, including a session that tunnels to itself. -/
theorem compute_idleness_metric_depth_bounded (arena : List Session)
    (s : Session) (now : Int) :
    compute_idleness_metric arena s now true = idlenessBaseScan s now ∧
    compute_idleness_metric arena s now false = idlenessDepthTwo arena s now ∧
    compute_idleness_metric [selfTunnelSession] selfTunnelSession 0 false
      = some 5 := by
  refine ⟨compute_idleness_nested_eq arena s now,
    compute_idleness_outer_eq arena s now, ?_⟩
  rw [compute_idleness_outer_eq]
  decide

/-! ## Claim C3: eligibility filter -/

/-- Claim C3: `skip_ineligible_session` returns true iff at least one of
the four rules holds: graphical session type (`x11`, `wayland`, `mir`),
absent tty handle, username among the excluded users, or leader pid 0. -/
theorem skip_ineligible_session_iff (s : Session)
    (excluded_users : Option (List String)) :
    skip_ineligible_session s excluded_users = true ↔
      (s.session.session_type ∈ (["x11", "wayland", "mir"] : List String) ∨
       s.tty = none ∨
       (∃ l, excluded_users = some l ∧ s.username ∈ l) ∨
       s.session.leader = 0) := by
  rw [skip_ineligible_session.eq_def]
  split_ifs with h1 h2 h3 h4
  · simp only [Bool.or_eq_true, beq_iff_eq] at h1
    simp only [true_iff]
    refine Or.inl ?_
    simp only [List.mem_cons, List.not_mem_nil, or_false]
    tauto
  · simp only [Option.isNone_iff_eq_none] at h2
    simp [h2]
  · cases excluded_users with
    | none => simp at h3
    | some l =>
      simp at h3
      simp only [true_iff]
      exact Or.inr (Or.inr (Or.inl ⟨l, rfl, h3⟩))
  · simp only [beq_iff_eq] at h4
    simp [h4]
  · simp only [Bool.or_eq_true, beq_iff_eq] at h1
    simp only [Option.isNone_iff_eq_none] at h2
    simp only [beq_iff_eq] at h4
    push_neg at h1
    simp only [false_iff]
    push_neg
    refine ⟨?_, h2, ?_, h4⟩
    · simp only [List.mem_cons, List.not_mem_nil, or_false]
      push_neg
      exact ⟨h1.1.1, h1.1.2, h1.2⟩
    · rintro l hl
      subst hl
      simp at h3
      exact h3

/-! ## Claim C10: equality methods -/

/-- Claim C10: `SessionProcess.__eq__` and `Session.__eq__` are total and
compare only the identity field: equality of two genuine values holds iff
the pids (resp. session ids) agree, independent of every other field, and
comparison against an object lacking the relevant attributes is false
rather than an error. -/
theorem equality_is_by_identity_field_only :
    (∀ a b : SessionProcess,
      (sessionprocess_eq a b.asOther = true ↔ a.process.pid = b.process.pid)) ∧
    (∀ a : SessionProcess,
      sessionprocess_eq a .missingProcessAttr = false ∧
      sessionprocess_eq a .processMissingPid = false) ∧
    (∀ a b : Session,
      (session_eq a b.asOther = true ↔
        a.session.session_id = b.session.session_id)) ∧
    (∀ a : Session,
      session_eq a .missingSessionAttr = false ∧
      session_eq a .sessionMissingId = false) := by
  refine ⟨fun a b => ?_, fun a => ⟨rfl, rfl⟩, fun a b => ?_, fun a => ⟨rfl, rfl⟩⟩
  · simp [sessionprocess_eq, SessionProcess.asOther]
  · simp [session_eq, Session.asOther]

/-! ## Claim C5: parsing the excluded-users value

The configuration value is a Python string, embedded as `List Char` so
that the splitting stays kernel-computable. -/

/-- Is `c` matched by the regex class of `re.split` in main.py line 373. -/
def isExcludedUsersDelim (c : Char) : Bool :=
  c == ',' || c == ';' || c == ':'

/-- Python `re.split` over the single-character class `[,;:]`: split at
every delimiter occurrence, keeping empty fields; the empty string yields
one empty field, exactly as `re.split` does. -/
def reSplitDelims : List Char → List (List Char)
  | [] => [[]]
  | c :: rest =>
    if isExcludedUsersDelim c then
      [] :: reSplitDelims rest
    else
      match reSplitDelims rest with
      | [] => [[c]]
      | w :: ws => (c :: w) :: ws

/-- Python `str.strip`: drop whitespace from both ends. -/
def pyStrip (l : List Char) : List Char :=
  ((l.dropWhile Char.isWhitespace).reverse.dropWhile Char.isWhitespace).reverse

/-- The `excluded-users` parse (main.py lines 372-375): `re.split` on the
class `[,;:]`, then `strip` each element. -/
def parse_excluded_users (value : List Char) : List (List Char) :=
  (reSplitDelims value).map pyStrip

lemma reSplitDelims_ne_nil (value : List Char) : reSplitDelims value ≠ [] := by
  cases value with
  | nil => simp [reSplitDelims]
  | cons c rest =>
    rw [reSplitDelims]
    split
    · simp
    · cases h : reSplitDelims rest <;> simp

/-- Claim C5 counterexample: for the default empty string the parse does
NOT produce the empty list; it produces the one-element list containing
the empty string (as `re.split` on an empty input returns one empty
field). -/
theorem parse_excluded_users_empty_is_singleton :
    parse_excluded_users [] = [[]] ∧ ([[]] : List (List Char)) ≠ [] := by
  exact ⟨rfl, by simp⟩

/-- Claim C5 amended: parsing splits on any of the characters `,` `;` `:`
and trims whitespace from each element; the result always has at least one
element, and in particular the default empty string yields the singleton
list containing the empty string (not the empty list). -/
theorem parse_excluded_users_amended :
    (∀ value : List Char, parse_excluded_users value ≠ []) ∧
    parse_excluded_users [] = [[]] ∧
    parse_excluded_users ("alice, bob;;carol".toList) =
      ["alice".toList, "bob".toList, [], "carol".toList] := by
  refine ⟨fun value => ?_, rfl, by decide⟩
  rw [parse_excluded_users]
  intro hmap
  exact reSplitDelims_ne_nil value (List.map_eq_nil_iff.mp hmap)

/-! ## Claim C1: configuration file open failure -/

/-- The default configuration path (main.py line 24). -/
def _DEFAULT_CONFIG_FILE : String := "/etc/stop-idle-sessions.conf"

/-- Outcome of the configuration-read step at startup. -/
inductive ConfigReadOutcome where
  | proceed
  | abort
  deriving DecidableEq, Repr

/-- The `open`/`OSError` handling (main.py lines 356-367): when the open
fails, the error is re-raised exactly when the supplied path equals the
default path, and is ignored otherwise. -/
def config_read_outcome (config_file : String) (open_ok : Bool) :
    ConfigReadOutcome :=
  if open_ok then .proceed
  else if config_file == _DEFAULT_CONFIG_FILE then .abort
  else .proceed

/-- Claim C1 (code bug): the code inverts its own documented intent.  A
failure to open the DEFAULT config file aborts startup, while a failure to
open an explicitly supplied `-c` file is silently ignored — the opposite
of both the spec and the comment in the source ("If it was the default
file that failed to open, then just ignore the failure"). -/
theorem config_read_outcome_is_inverted :
    config_read_outcome _DEFAULT_CONFIG_FILE false = .abort ∧
    config_read_outcome "/etc/stop-idle-sessions-custom.conf" false
      = .proceed := by
  constructor <;> rfl

/-! ## Enforcement loop (main.py lines 391-421) -/

/-- The per-session enforcement decision of the main loop, with the
dry-run gate factored out: the session is (or, under dry-run, would be)
stopped when it is eligible, the evaluator returns a duration, and that
duration reaches the threshold of `60 * timeout` seconds. -/
def enforcement_decision (arena : List Session) (excluded_users : List String)
    (timeout : Int) (now : Int) (s : Session) : Bool :=
  if skip_ineligible_session s (some excluded_users) then false
  else
    match compute_idleness_metric arena s now false with
    | none => false
    | some idletime => decide (60 * timeout ≤ idletime)

/-- The ids of the sessions whose leaders one pass of the main loop kills:
ineligible sessions are skipped, an evaluator failure is logged and
skipped, and `kill_session_leader` runs only when the idleness reaches the
threshold and dry-run is off (main.py lines 393-413). -/
def enforcement_kills (arena : List Session) (excluded_users : List String)
    (timeout : Int) (dry_run : Bool) (now : Int) : List String :=
  arena.filterMap fun s =>
    if skip_ineligible_session s (some excluded_users) then none
    else
      match compute_idleness_metric arena s now false with
      | none => none
      | some idletime =>
        if 60 * timeout ≤ idletime then
          if dry_run then none else some s.session.session_id
        else none

/-- The host state one pass can affect: the loaded sessions (carrying the
process sets and the terminal atimes). -/
structure SystemState where
  sessions : List Session
  deriving DecidableEq, Repr

/-- Killing a session leader removes the session with that id. -/
def apply_kills (st : SystemState) (kills : List String) : SystemState :=
  { sessions :=
      st.sessions.filter fun s => !(kills.contains s.session.session_id) }

/-- One full pass: compute the kill set from the current state, then apply
it.  Nothing else in the loop mutates the host. -/
def run_pass (st : SystemState) (excluded_users : List String)
    (timeout : Int) (dry_run : Bool) (now : Int) : SystemState :=
  apply_kills st
    (enforcement_kills st.sessions excluded_users timeout dry_run now)

/-- An eligible session whose tty timestamps lie in the future of
`now = 0` (clock skew), so its computed idleness is negative. -/
def skewedSession : Session :=
  { session := { session_id := "3", uid := 1000, session_type := "tty",
                 tty := "pts/0", leader := 321 },
    tty := some { name := "pts/0", atime := 10, mtime := 10 },
    display := none,
    display_idle := none,
    username := "alice",
    processes := [] }

/-- Claim C6 counterexample: with `timeout = 0`, an eligible session for
which the evaluator returns a duration (here `-10` seconds, from tty
timestamps 10 seconds in the future of `now = 0`) is NOT terminated, so
the decision does depend on the measured idleness value. -/
theorem timeout_zero_skewed_session_not_terminated :
    skip_ineligible_session skewedSession (some []) = false ∧
    compute_idleness_metric [] skewedSession 0 false = some (-10) ∧
    enforcement_decision [] [] 0 0 skewedSession = false := by
  refine ⟨by decide, ?_, ?_⟩
  · rw [compute_idleness_outer_eq]
    decide
  · simp only [enforcement_decision, compute_idleness_outer_eq]
    decide

/-- Claim C6 amended: when the configured timeout is 0 minutes, every
eligible session whose computed idleness is non-negative is terminated
(or would be, under dry-run); a session with a negative idleness (tty
timestamps in the future, clock skew) is left alone. -/
theorem timeout_zero_terminates_nonneg (arena : List Session)
    (excluded_users : List String) (now : Int) (s : Session) (d : Int)
    (helig : skip_ineligible_session s (some excluded_users) = false)
    (hidle : compute_idleness_metric arena s now false = some d)
    (hnn : 0 ≤ d) :
    enforcement_decision arena excluded_users 0 now s = true := by
  rw [enforcement_decision, helig, hidle]
  simp only [Bool.false_eq_true, if_false, decide_eq_true_eq]
  omega

/-- An eligible session, 30 seconds idle at `now = 0`. -/
def activeSession : Session :=
  { session := { session_id := "5", uid := 1001, session_type := "tty",
                 tty := "pts/2", leader := 77 },
    tty := some { name := "pts/2", atime := -30, mtime := -30 },
    display := none,
    display_idle := none,
    username := "bob",
    processes := [] }

theorem timeout_zero_terminates_nonneg_witness :
    skip_ineligible_session activeSession (some []) = false ∧
    compute_idleness_metric [] activeSession 0 false = some 30 ∧
    (0 : Int) ≤ 30 ∧
    enforcement_decision [] [] 0 0 activeSession = true := by
  have h1 : skip_ineligible_session activeSession (some []) = false := by
    decide
  have h2 : compute_idleness_metric [] activeSession 0 false = some 30 := by
    rw [compute_idleness_outer_eq]
    decide
  exact ⟨h1, h2, by decide,
    timeout_zero_terminates_nonneg [] [] 0 activeSession 30 h1 h2 (by decide)⟩

/-- Claim C9: with dry-run set, a pass kills no session leader, and the
session set (with its process sets and terminal atimes) is unchanged. -/
theorem dry_run_pass_changes_nothing (st : SystemState)
    (excluded_users : List String) (timeout : Int) (now : Int) :
    enforcement_kills st.sessions excluded_users timeout true now = [] ∧
    run_pass st excluded_users timeout true now = st := by
  have hk : enforcement_kills st.sessions excluded_users timeout true now
      = [] := by
    rw [enforcement_kills, List.filterMap_eq_nil_iff]
    intro s _
    split
    · rfl
    · cases compute_idleness_metric st.sessions s now false with
      | none => rfl
      | some idletime => simp
  refine ⟨hk, ?_⟩
  rw [run_pass, hk, apply_kills]
  have hfilter :
      (st.sessions.filter fun s =>
        !(([] : List String).contains s.session.session_id))
        = st.sessions.filter fun _ => true := rfl
  rw [hfilter, List.filter_true]

/-! ## Pass two of `load_sessions` (main.py lines 166-172)

The first pass builds every `Session` with empty `tunneled_sessions`
lists; the second pass walks every ordered pair of sessions and appends
`session_b` to `process_a.tunneled_sessions` whenever one of
`process_a`'s backend processes equals (by pid) a process of
`session_b`.  The appends below occur in exactly the source's loop
order (`session_b`, then `process_b`, then the backend process). -/

/-- Second-pass resolution of one `SessionProcess` against the whole
session list. -/
def resolveProcess (sessions : List Session) (pa : SessionProcess) :
    SessionProcess :=
  { pa with
    tunneled_sessions := pa.tunneled_sessions ++
      (sessions.flatMap fun sb =>
        sb.processes.flatMap fun pb =>
          (pa.tunneled_processes.filter fun q =>
            process_eq q pb.process).map fun _ => sb.session.session_id) }

/-- Second-pass resolution of one `Session`. -/
def resolveSession (sessions : List Session) (sa : Session) : Session :=
  { sa with processes := sa.processes.map (resolveProcess sessions) }

/-- Pass two of `load_sessions`: resolve every session's processes against
the full session list. -/
def resolve_tunneled_sessions (sessions : List Session) : List Session :=
  sessions.map (resolveSession sessions)

/-- Claim C7: after the second pass, for every process `p` of a produced
session and every produced session `T`, `T` appears in
`p.tunneled_sessions` (membership by session id, which is what
`Session.__eq__` compares) iff some backend process in
`p.tunneled_processes` has its pid among `T`'s processes.  The input is
the first-pass output: all `tunneled_sessions` lists empty, session ids
distinct. -/
theorem resolve_tunneled_sessions_sound_complete (sessions : List Session)
    (hids : (sessions.map fun s => s.session.session_id).Nodup)
    (hempty : ∀ s ∈ sessions, ∀ p ∈ s.processes, p.tunneled_sessions = [])
    (S : Session) (hS : S ∈ resolve_tunneled_sessions sessions)
    (p : SessionProcess) (hp : p ∈ S.processes)
    (T : Session) (hT : T ∈ resolve_tunneled_sessions sessions) :
    T.session.session_id ∈ p.tunneled_sessions ↔
      ∃ q ∈ p.tunneled_processes, ∃ r ∈ T.processes,
        q.pid = r.process.pid := by
  rcases List.mem_map.mp hS with ⟨sa, hsa, rfl⟩
  rcases List.mem_map.mp hT with ⟨tb, htb, rfl⟩
  have hps : (resolveSession sessions sa).processes
      = sa.processes.map (resolveProcess sessions) := rfl
  rw [hps] at hp
  rcases List.mem_map.mp hp with ⟨pa, hpa, rfl⟩
  have hpe : pa.tunneled_sessions = [] := hempty sa hsa pa hpa
  have htun : (resolveProcess sessions pa).tunneled_processes
      = pa.tunneled_processes := rfl
  have htid : (resolveSession sessions tb).session = tb.session := rfl
  have hproc : (resolveSession sessions tb).processes
      = tb.processes.map (resolveProcess sessions) := rfl
  rw [htun, htid, hproc]
  constructor
  · intro hmem
    simp only [resolveProcess, hpe, List.nil_append, List.mem_flatMap,
      List.mem_map, List.mem_filter, process_eq, beq_iff_eq] at hmem
    rcases hmem with ⟨sb, hsb, pb, hpb, q, ⟨hq, heq⟩, hid⟩
    have hsbtb : sb = tb := List.inj_on_of_nodup_map hids hsb htb hid
    subst hsbtb
    exact ⟨q, hq, resolveProcess sessions pb,
      List.mem_map.mpr ⟨pb, hpb, rfl⟩, heq⟩
  · rintro ⟨q, hq, r, hr, hqr⟩
    rcases List.mem_map.mp hr with ⟨pb, hpb, rfl⟩
    simp only [resolveProcess, hpe, List.nil_append, List.mem_flatMap,
      List.mem_map, List.mem_filter, process_eq, beq_iff_eq]
    exact ⟨tb, htb, pb, hpb, q, ⟨hq, hqr⟩, rfl⟩

/-- A first-pass process of session 14: pid 200, tunneling to backend
pid 100. -/
def c7OuterProcess : SessionProcess :=
  { process := { pid := 200 },
    tunneled_processes := [{ pid := 100 }],
    tunneled_sessions := [] }

/-- First-pass output for the witness: an SSH session 14 tunneling into a
VNC session 7. -/
def c7OuterRaw : Session :=
  { session := { session_id := "14", uid := 1000, session_type := "tty",
                 tty := "pts/3", leader := 200 },
    tty := some { name := "pts/3", atime := -1800, mtime := -1800 },
    display := none,
    display_idle := none,
    username := "alice",
    processes := [c7OuterProcess] }

/-- First-pass output for the witness: the VNC session 7 containing the
backend process pid 100. -/
def c7InnerRaw : Session :=
  { session := { session_id := "7", uid := 1000, session_type := "tty",
                 tty := "pts/1", leader := 100 },
    tty := none,
    display := some ":1",
    display_idle := some 120,
    username := "alice",
    processes := [{ process := { pid := 100 },
                    tunneled_processes := [],
                    tunneled_sessions := [] }] }

theorem resolve_tunneled_sessions_sound_complete_witness :
    (([c7OuterRaw, c7InnerRaw].map fun s => s.session.session_id).Nodup) ∧
    (∀ s ∈ [c7OuterRaw, c7InnerRaw], ∀ p ∈ s.processes,
      p.tunneled_sessions = []) ∧
    ((resolveSession [c7OuterRaw, c7InnerRaw] c7InnerRaw).session.session_id ∈
        (resolveProcess [c7OuterRaw, c7InnerRaw] c7OuterProcess).tunneled_sessions ↔
      ∃ q ∈ (resolveProcess [c7OuterRaw, c7InnerRaw] c7OuterProcess).tunneled_processes,
        ∃ r ∈ (resolveSession [c7OuterRaw, c7InnerRaw] c7InnerRaw).processes,
          q.pid = r.process.pid) :=
  ⟨by decide, by decide,
    resolve_tunneled_sessions_sound_complete [c7OuterRaw, c7InnerRaw]
      (by decide) (by decide)
      (resolveSession [c7OuterRaw, c7InnerRaw] c7OuterRaw)
      (by decide)
      (resolveProcess [c7OuterRaw, c7InnerRaw] c7OuterProcess)
      (by decide)
      (resolveSession [c7OuterRaw, c7InnerRaw] c7InnerRaw)
      (by decide)⟩

end StopIdleSessions
